import Mathlib

/-!
# Hartree-Fock gradient driver (`src/bin/deriv/main.cc`)

A shallow embedding of `psi::deriv::deriv`.  The C++ function is one straight
line of code with three loop nests; each loop nest is embedded as a fold over
`List.range`, in the order the source runs it, and the top-level function
`deriv` composes the blocks exactly as the source does.

Scalars (`double` in the source) are an arbitrary type `α` carrying the
operations the source uses (`0`, `1`, `+`, `*`); every theorem names the
algebraic laws it relies on: none for the order of the four additions of the
gradient, commutativity of the product for the symmetry of the densities, a
commutative additive monoid where a running accumulation is compared with a
sum.  Index types (`int` in the source) are natural
numbers: every index the function uses is a loop counter starting at zero or a
sum of per-irrep counts.
-/

set_option autoImplicit false
set_option linter.dupNamespace false
set_option linter.unusedVariables false

namespace psi.deriv

/-! ## Data model -/

/-- Modelled from the spec: the dense matrix without symmetry (libmints
`SimpleMatrix`, whose declaration is not among the sources).  It is a
`rows × cols` table with `get`/`set` by index, elementwise `add` and `gemm`.
As in libmints, `get` and `set` do no bounds checking: the table is total and an
index outside `rows × cols` addresses storage that does not belong to the
matrix. -/
structure SimpleMatrix (α : Type) where
  name : String
  rows : Nat
  cols : Nat
  matrix_ : Nat → Nat → α

namespace SimpleMatrix

variable {α : Type}

/-- Modelled from the spec: the constructor `SimpleMatrix(name, rows, cols)`,
which allocates zero-filled storage. -/
def create [Zero α] (name : String) (rows cols : Nat) : SimpleMatrix α :=
  { name := name, rows := rows, cols := cols, matrix_ := fun _ _ => 0 }

/-- Modelled from the spec: `get(m, n)`. -/
def get (M : SimpleMatrix α) (m n : Nat) : α :=
  M.matrix_ m n

/-- Modelled from the spec: `set(m, n, val)`; only the entry `(m, n)` changes. -/
def set (M : SimpleMatrix α) (m n : Nat) (val : α) : SimpleMatrix α :=
  { M with matrix_ := fun i j => if i = m ∧ j = n then val else M.matrix_ i j }

/-- Modelled from the spec: elementwise accumulation `this += plus`; the shape
of `this` is kept.  An entry of the result is `this[i,j] + plus[i,j]`, in this
operand order. -/
def add [Add α] (M plus : SimpleMatrix α) : SimpleMatrix α :=
  { M with matrix_ := fun i j => M.matrix_ i j + plus.matrix_ i j }

/-- Modelled from the spec: matrix multiply, optionally transposing an operand:
`this = alpha * op(a) * op(b) + beta * this`, the inner index running over the
columns of `op(a)` from zero upwards. -/
def gemm [Zero α] [Add α] [Mul α] (M : SimpleMatrix α) (transa transb : Bool) (alpha : α)
    (a b : SimpleMatrix α) (beta : α) : SimpleMatrix α :=
  { M with
    matrix_ := fun i j =>
      alpha * (List.range (if transa then a.rows else a.cols)).foldl
        (fun acc s =>
          acc + (if transa then a.matrix_ s i else a.matrix_ i s)
              * (if transb then b.matrix_ j s else b.matrix_ s j)) 0
        + beta * M.matrix_ i j }

end SimpleMatrix

/-- Modelled from the spec: the symmetry-blocked matrix (libmints `Matrix`
behind `SharedMatrix`): `nirreps` blocks, block `h` of size
`rowspi h × colspi h`, read with `get(h, m, n)`. -/
structure SharedMatrix (α : Type) where
  nirreps : Nat
  rowspi : Nat → Nat
  colspi : Nat → Nat
  matrix_ : Nat → Nat → Nat → α

/-- Modelled from the spec: `get(h, m, n)` of a symmetry-blocked matrix. -/
def SharedMatrix.get {α : Type} (M : SharedMatrix α) (h m n : Nat) : α :=
  M.matrix_ h m n

/-- Modelled from the spec: the per-irrep vector behind `SharedVector`, read with
`get(h, i)`. -/
structure SharedVector (α : Type) where
  vector_ : Nat → Nat → α

/-- Modelled from the spec: `get(h, i)` of a per-irrep vector. -/
def SharedVector.get {α : Type} (v : SharedVector α) (h i : Nat) : α :=
  v.vector_ h i

/-- Modelled from the spec: the molecule, which exposes its atom count and the
first derivative of the nuclear repulsion energy. -/
structure Molecule (α : Type) where
  natom : Nat
  nuclear_repulsion_energy_deriv1 : SimpleMatrix α

/-- Modelled from the spec: the basis set, which exposes its counts and the
molecule it was constructed for. -/
structure BasisSet (α : Type) where
  molecule : Molecule α
  nshell : Nat
  nprimitive : Nat
  nao : Nat
  nbf : Nat

/-- Modelled from the spec: what `BasisSet::construct` reads from the basis-set
file for a molecule; the counts are whatever the parser finds. -/
structure BasisCounts where
  nshell : Nat
  nprimitive : Nat
  nao : Nat
  nbf : Nat

/-- Modelled from the spec: the symmetry-adapted basis: its irrep count, its
dimension (SO count per irrep) and the two transform matrices of its petite
list. -/
structure SOBasisSet (α : Type) where
  nirrep : Nat
  dimension : Nat → Nat
  sotoao : SharedMatrix α
  aotoso : SharedMatrix α

/-- Modelled from the spec: the matrix factory after `init_with(rows, cols)`;
`create_simple_matrix` makes a square matrix over the total row count. -/
structure MatrixFactory where
  nirreps : Nat
  rowspi : Nat → Nat
  colspi : Nat → Nat

/-- Total row count of a factory: the sum of its per-irrep row counts. -/
def MatrixFactory.nso (f : MatrixFactory) : Nat :=
  (List.range f.nirreps).foldl (fun acc h => acc + f.rowspi h) 0

/-- Modelled from the spec: `create_simple_matrix(name)`. -/
def MatrixFactory.create_simple_matrix {α : Type} [Zero α] (f : MatrixFactory) (name : String) :
    SimpleMatrix α :=
  SimpleMatrix.create name f.nso f.nso

/-- Modelled from the spec: the reference wavefunction (the SCF result): occupied
counts, SO-basis coefficients, orbital energies and the per-irrep counts. -/
structure Wavefunction (α : Type) where
  doccpi : Nat → Nat
  Ca : SharedMatrix α
  epsilon_a : SharedVector α
  nso : Nat
  nmo : Nat
  nsopi : Nat → Nat
  nmopi : Nat → Nat

/-- The process environment the function reads: the active molecule, which may be
unset, and the reference wavefunction. -/
structure Environment (α : Type) where
  molecule : Option (Molecule α)
  reference_wavefunction : Wavefunction α

/-- The option table, read with `get_str`. -/
structure Options where
  get_str : String → String

/-- The reference type handed to the derivative evaluator. -/
inductive RefType
  | ref_rhf
  deriving DecidableEq, Repr

/-- Modelled from the spec: the derivative evaluator after construction; its three
accessors take no argument. -/
structure Deriv (α : Type) where
  overlap : SimpleMatrix α
  one_electron : SimpleMatrix α
  two_body : SimpleMatrix α

/-- The external collaborators of the function, each a function of the arguments
the source passes to it.  The evaluator constructor is also given the process
environment, which it can read just as `deriv` does. -/
structure Collaborators (α : Type) where
  construct : String → Molecule α → String → BasisCounts
  sobasisset : BasisSet α → SOBasisSet α
  mkDeriv : Environment α → RefType → MatrixFactory → BasisSet α → Deriv α

/-- The return code of a module. -/
inductive PsiReturnType
  | Success
  | Failure
  deriving DecidableEq, Repr

/-- The gradient writer: the molecule and the gradient it was constructed with. -/
structure GradientWriter (α : Type) where
  molecule : Molecule α
  gradient : SimpleMatrix α

/-- The externally visible effects of a run: the calls into the collaborators and
the output stream.  A `printAtomVector` is labelled with the variable printed,
the two matrix constructions with the name given to the matrix. -/
inductive Event
  | tstart
  | fprintf (text : String)
  | fprintfInt (format : String) (value : Nat)
  | basisSetConstruct (path basis : String)
  | integralFactory
  | soBasisSet
  | factoryInit
  | moleculePrint
  | createSimpleMatrix (name : String)
  | newSimpleMatrix (name : String)
  | derivConstruct
  | derivOverlap
  | derivOneElectron
  | derivTwoBody
  | nuclearRepulsionDeriv1
  | printAtomVector (name : String)
  | gradientWrite (file : String)
  | tstop
  deriving DecidableEq, Repr

/-! ## The blocks of `deriv` -/

section Blocks

variable {α : Type}

/-- State of the flattening loop (lines 92-104): the two flat matrices being
filled and the two running offsets. -/
structure FlattenState (α : Type) where
  simple_usotoao : SimpleMatrix α
  simple_Cso : SimpleMatrix α
  sooffset : Nat
  mooffset : Nat

/-- Body of the loop over the local row `m` of irrep `h` (lines 95-100): copy row
`m` of the transform block and of the coefficient block into flat row
`sooffset + m`. -/
def flattenRow (usotoao Cso : SharedMatrix α) (nbf : Nat) (nmopi : Nat → Nat) (h : Nat)
    (st : FlattenState α) (m : Nat) : FlattenState α :=
  { st with
    simple_usotoao :=
      (List.range nbf).foldl
        (fun U n => U.set (st.sooffset + m) n (usotoao.get h m n)) st.simple_usotoao
    simple_Cso :=
      (List.range (nmopi h)).foldl
        (fun C n => C.set (st.sooffset + m) (n + st.mooffset) (Cso.get h m n)) st.simple_Cso }

/-- Body of the loop over the irrep `h` (lines 94-103): the rows of the block, then
`sooffset += nsopi[h]` and `mooffset += Cso->rowspi()[h]`. -/
def flattenIrrep (usotoao Cso : SharedMatrix α) (nbf : Nat) (nsopi nmopi : Nat → Nat)
    (st : FlattenState α) (h : Nat) : FlattenState α :=
  let st1 := (List.range (Cso.rowspi h)).foldl (flattenRow usotoao Cso nbf nmopi h) st
  { st1 with
    sooffset := st1.sooffset + nsopi h
    mooffset := st1.mooffset + Cso.rowspi h }

/-- The flattening loop (lines 92-104), started with both offsets at zero. -/
def flatten (usotoao Cso : SharedMatrix α) (nbf : Nat) (nsopi nmopi : Nat → Nat)
    (simple_usotoao simple_Cso : SimpleMatrix α) : FlattenState α :=
  (List.range Cso.nirreps).foldl (flattenIrrep usotoao Cso nbf nsopi nmopi)
    { simple_usotoao := simple_usotoao, simple_Cso := simple_Cso, sooffset := 0, mooffset := 0 }

/-- The coefficient transform (line 109):
`Cao->gemm(true, false, 1.0, simple_usotoao, simple_Cso, 0.0)`. -/
def formCao [Zero α] [One α] [Add α] [Mul α] (Cao simple_usotoao simple_Cso : SimpleMatrix α) :
    SimpleMatrix α :=
  Cao.gemm true false 1 simple_usotoao simple_Cso 0

/-- Accumulators of the density loop for one pair of AO indices (lines 119-122). -/
structure DensitySums (α : Type) where
  sum : α
  qsum : α
  mooffset : Nat

/-- Body of the loop over the occupied orbital `i` of irrep `h` (lines 125-126). -/
def densityOrbital [Add α] [Mul α] (Cao : SimpleMatrix α) (etmp : SharedVector α)
    (m n h : Nat) (st : DensitySums α) (i : Nat) : DensitySums α :=
  { st with
    sum := st.sum + Cao.get m (i + st.mooffset) * Cao.get n (i + st.mooffset) * etmp.get h i
    qsum := st.qsum + Cao.get m (i + st.mooffset) * Cao.get n (i + st.mooffset) }

/-- Body of the loop over the irrep `h` (lines 124-130): the occupied orbitals of
the irrep, then `mooffset += nmopi[h]`. -/
def densityIrrep [Add α] [Mul α] (Cao : SimpleMatrix α) (etmp : SharedVector α)
    (clsdpi nmopi : Nat → Nat) (m n : Nat) (st : DensitySums α) (h : Nat) : DensitySums α :=
  let st1 := (List.range (clsdpi h)).foldl (densityOrbital Cao etmp m n h) st
  { st1 with mooffset := st1.mooffset + nmopi h }

/-- The two sums for the pair `(m, n)` (lines 119-131). -/
def densitySums [Zero α] [Add α] [Mul α] (Cao : SimpleMatrix α) (etmp : SharedVector α)
    (clsdpi nmopi : Nat → Nat) (nirrep m n : Nat) : DensitySums α :=
  (List.range nirrep).foldl (densityIrrep Cao etmp clsdpi nmopi m n)
    { sum := 0, qsum := 0, mooffset := 0 }

/-- One execution of lines 125-126: the irrep `h`, the local orbital index `i`
with which the orbital energy is read, and the coefficient column
`i + mooffset` that is read. -/
structure Access where
  h : Nat
  i : Nat
  column : Nat
  deriving DecidableEq, Repr

/-- The loop over the irrep `h` (lines 124-130) with the accumulation left out:
the accesses its executions of lines 125-126 make, appended in order, then
`mooffset += nmopi[h]`. -/
def accessesIrrep (clsdpi nmopi : Nat → Nat) (st : List Access × Nat) (h : Nat) :
    List Access × Nat :=
  (st.1 ++ (List.range (clsdpi h)).map (fun i => { h := h, i := i, column := i + st.2 }),
    st.2 + nmopi h)

/-- The accesses of lines 122-131 for one pair of AO indices, in the order they are
made. -/
def accesses (clsdpi nmopi : Nat → Nat) (nirrep : Nat) : List Access :=
  ((List.range nirrep).foldl (accessesIrrep clsdpi nmopi) ([], 0)).1

/-- The two density matrices being filled. -/
structure Densities (α : Type) where
  Q : SimpleMatrix α
  W : SimpleMatrix α

/-- Body of the loop over `n` (lines 118-134): compute the sums and store them. -/
def densityEntry [Zero α] [Add α] [Mul α] (Cao : SimpleMatrix α) (etmp : SharedVector α)
    (clsdpi nmopi : Nat → Nat) (nirrep m : Nat) (QW : Densities α) (n : Nat) : Densities α :=
  let s := densitySums Cao etmp clsdpi nmopi nirrep m n
  { W := QW.W.set m n s.sum, Q := QW.Q.set m n s.qsum }

/-- Body of the loop over `m` (lines 117-135). -/
def densityRow [Zero α] [Add α] [Mul α] (Cao : SimpleMatrix α) (etmp : SharedVector α)
    (clsdpi nmopi : Nat → Nat) (nirrep nbf : Nat) (QW : Densities α) (m : Nat) : Densities α :=
  (List.range nbf).foldl (densityEntry Cao etmp clsdpi nmopi nirrep m) QW

/-- The density builder (lines 116-135). -/
def formDensities [Zero α] [Add α] [Mul α] (Cao : SimpleMatrix α) (etmp : SharedVector α)
    (clsdpi nmopi : Nat → Nat) (nirrep nbf : Nat) (Q W : SimpleMatrix α) : Densities α :=
  (List.range nbf).foldl (densityRow Cao etmp clsdpi nmopi nirrep nbf) { Q := Q, W := W }

/-- The gradient assembly (lines 156-160): a fresh `natom × 3` matrix and four
accumulations. -/
def assemble [Zero α] [Add α] (natom : Nat) (enuc QdH WdS tb : SimpleMatrix α) :
    SimpleMatrix α :=
  ((((SimpleMatrix.create "SCF gradient" natom 3).add enuc).add QdH).add WdS).add tb

end Blocks

/-! ## The function `deriv` -/

/-- A call into the derivative evaluator: the member called and the matrices
passed to it as arguments. -/
structure EvaluatorCall (α : Type) where
  member : String
  matrices : List (SimpleMatrix α)

/-- What a completed run leaves behind: the matrices it built, the calls it made
into the derivative evaluator (lines 143-146), the writer it constructed, the
file it wrote and its return code. -/
structure Output (α : Type) where
  simple_usotoao : SimpleMatrix α
  simple_Cso : SimpleMatrix α
  Cao : SimpleMatrix α
  Q : SimpleMatrix α
  W : SimpleMatrix α
  WdS : SimpleMatrix α
  QdH : SimpleMatrix α
  tb : SimpleMatrix α
  evaluatorCalls : List (EvaluatorCall α)
  enuc : SimpleMatrix α
  scf_grad : SimpleMatrix α
  grad : GradientWriter α
  file : String
  status : PsiReturnType

/-- A run of `deriv`: its effects in order and either the exception it threw or
its output. -/
structure Run (α : Type) where
  trace : List Event
  result : Except String (Output α)

/-- The message thrown when a run fails, if it fails. -/
def Run.thrown {α : Type} (r : Run α) : Option String :=
  match r.result with
  | .error msg => some msg
  | .ok _ => none

/-- The output of a run, if it completes. -/
def Run.output {α : Type} (r : Run α) : Option (Output α) :=
  match r.result with
  | .error _ => none
  | .ok out => some out

/-- Effects of lines 27-32, which every run performs. -/
def startTrace : List Event :=
  [.tstart, .fprintf " DERIV: Wrapper to libmints.\n   by Justin Turney\n\n"]

/-- Effects of lines 42-165 and 171 of a run that has a molecule. -/
def bodyTrace {α : Type} (options : Options) (molecule : Molecule α) (basisset : BasisSet α) :
    List Event :=
  [ .basisSetConstruct (options.get_str "BASIS_PATH") (options.get_str "BASIS"),
    .integralFactory, .soBasisSet, .factoryInit, .moleculePrint,
    .fprintf "   Calculation information:\n",
    .fprintfInt "      Number of atoms:           %4d\n" molecule.natom,
    .fprintfInt "      Number of shells:          %4d\n" basisset.nshell,
    .fprintfInt "      Number of primitives:      %4d\n" basisset.nprimitive,
    .fprintfInt "      Number of atomic orbitals: %4d\n" basisset.nao,
    .fprintfInt "      Number of basis functions: %4d\n\n" basisset.nbf,
    .createSimpleMatrix "Q", .newSimpleMatrix "Cso", .newSimpleMatrix "USO -> AO",
    .newSimpleMatrix "Cao", .createSimpleMatrix "W",
    .derivConstruct, .derivOverlap, .derivOneElectron, .derivTwoBody,
    .nuclearRepulsionDeriv1,
    .printAtomVector "enuc", .printAtomVector "QdH", .printAtomVector "WdS",
    .printAtomVector "tb",
    .newSimpleMatrix "SCF gradient", .printAtomVector "SCF gradient",
    .gradientWrite "psi.file11.dat", .tstop ]

/-- Lines 46-47: the basis set constructed for the molecule from the options. -/
def constructBasisSet {α : Type} (collab : Collaborators α) (options : Options)
    (molecule : Molecule α) : BasisSet α :=
  let counts := collab.construct (options.get_str "BASIS_PATH") molecule (options.get_str "BASIS")
  { molecule := molecule, nshell := counts.nshell, nprimitive := counts.nprimitive,
    nao := counts.nao, nbf := counts.nbf }

/-- Lines 42-173: the computation of a run that found the molecule `molecule`. -/
def derivBody {α : Type} [Zero α] [One α] [Add α] [Mul α] (collab : Collaborators α)
    (env : Environment α) (options : Options) (molecule : Molecule α) : Output α :=
  let wfn := env.reference_wavefunction
  let basisset := constructBasisSet collab options molecule
  let sobasisset := collab.sobasisset basisset
  let usotoao := sobasisset.sotoao
  let dimension := sobasisset.dimension
  let factory : MatrixFactory :=
    { nirreps := sobasisset.nirrep, rowspi := dimension, colspi := dimension }
  let Q0 : SimpleMatrix α := factory.create_simple_matrix "Q"
  let clsdpi := wfn.doccpi
  let Cso := wfn.Ca
  let flat := flatten usotoao Cso basisset.nbf wfn.nsopi wfn.nmopi
    (SimpleMatrix.create "USO -> AO" wfn.nso basisset.nbf)
    (SimpleMatrix.create "Cso" wfn.nso wfn.nmo)
  let Cao := formCao (SimpleMatrix.create "Cao" basisset.nbf wfn.nmo)
    flat.simple_usotoao flat.simple_Cso
  let etmp := wfn.epsilon_a
  let W0 : SimpleMatrix α := factory.create_simple_matrix "W"
  let QW := formDensities Cao etmp clsdpi wfn.nmopi sobasisset.nirrep basisset.nbf Q0 W0
  let evaluator := collab.mkDeriv env RefType.ref_rhf factory basisset
  let WdS := evaluator.overlap
  let QdH := evaluator.one_electron
  let tb := evaluator.two_body
  let enuc := basisset.molecule.nuclear_repulsion_energy_deriv1
  let scf_grad := assemble basisset.molecule.natom enuc QdH WdS tb
  { simple_usotoao := flat.simple_usotoao, simple_Cso := flat.simple_Cso, Cao := Cao,
    Q := QW.Q, W := QW.W, WdS := WdS, QdH := QdH, tb := tb,
    evaluatorCalls :=
      [ { member := "Deriv", matrices := [] }, { member := "overlap", matrices := [] },
        { member := "one_electron", matrices := [] }, { member := "two_body", matrices := [] } ],
    enuc := enuc,
    scf_grad := scf_grad,
    grad := { molecule := basisset.molecule, gradient := scf_grad },
    file := "psi.file11.dat", status := PsiReturnType.Success }

/-- The function `deriv` (lines 25-174).  The process environment, which the
source reads through a global, and the external collaborators are explicit
arguments.  Without an active molecule the run prints a message and throws (lines
37-40); otherwise it runs lines 42-173 to completion.  The collaborators are
total functions and the reference wavefunction is present: the only exception
the model knows is the one the function itself throws. -/
def deriv {α : Type} [Zero α] [One α] [Add α] [Mul α] (collab : Collaborators α)
    (env : Environment α) (options : Options) : Run α :=
  match env.molecule with
  | none =>
    { trace := startTrace ++
        [.fprintf "  Active molecule not set!\n   Mints wrapper is not meant to be run with IPV1 inputs."]
      result := .error "Active molecule not set!" }
  | some molecule =>
    { trace := startTrace ++ bodyTrace options molecule (constructBasisSet collab options molecule)
      result := .ok (derivBody collab env options molecule) }

/-- The effects that construct a basis set, build a matrix, evaluate a derivative
contribution or write the gradient file. -/
def Event.isComputation : Event → Bool
  | .basisSetConstruct _ _ => true
  | .integralFactory => true
  | .soBasisSet => true
  | .factoryInit => true
  | .createSimpleMatrix _ => true
  | .newSimpleMatrix _ => true
  | .derivConstruct => true
  | .derivOverlap => true
  | .derivOneElectron => true
  | .derivTwoBody => true
  | .nuclearRepulsionDeriv1 => true
  | .gradientWrite _ => true
  | _ => false

/-- The column offset of irrep `h` in the words of the specification: the sum of
the MO counts of the irreps before `h`. -/
def offset (nmopi : Nat → Nat) (h : Nat) : Nat :=
  ∑ k ∈ Finset.range h, nmopi k

/-! ## Concrete inputs used by the witnesses -/

namespace Example

/-- A `rows × cols` integer matrix given by its rows; entries outside the list
are zero. -/
def mat (name : String) (rows cols : Nat) (entries : List (List Int)) : SimpleMatrix Int :=
  { name := name, rows := rows, cols := cols,
    matrix_ := fun i j => (entries.getD i []).getD j 0 }

/-- A symmetry-blocked integer matrix given block by block. -/
def blocked (rowspi colspi : List Nat) (blocks : List (List (List Int))) : SharedMatrix Int :=
  { nirreps := rowspi.length, rowspi := fun h => rowspi.getD h 0,
    colspi := fun h => colspi.getD h 0,
    matrix_ := fun h m n => (((blocks.getD h []).getD m []).getD n 0) }

/-- Options naming a basis set. -/
def options : Options :=
  { get_str := fun key => if key = "BASIS" then "STO-3G" else "/usr/share/psi/basis" }

/-- A one-atom molecule whose nuclear repulsion derivative is `(1, 2, 3)`. -/
def atom : Molecule Int :=
  { natom := 1, nuclear_repulsion_energy_deriv1 := mat "enuc" 1 3 [[1, 2, 3]] }

/-- A wavefunction with one irrep, one SO, one MO, one occupied orbital and the
coefficient `c`. -/
def wfn1 (c : Int) : Wavefunction Int :=
  { doccpi := fun _ => 1, Ca := blocked [1] [1] [[[c]]], epsilon_a := { vector_ := fun _ _ => 7 },
    nso := 1, nmo := 1, nsopi := fun _ => 1, nmopi := fun _ => 1 }

/-- Collaborators for a one-function, one-irrep basis whose evaluator returns the
three matrices given. -/
def collab1 (WdS QdH tb : SimpleMatrix Int) : Collaborators Int :=
  { construct := fun _ _ _ => { nshell := 1, nprimitive := 1, nao := 1, nbf := 1 },
    sobasisset := fun _ =>
      { nirrep := 1, dimension := fun _ => 1, sotoao := blocked [1] [1] [[[1]]],
        aotoso := blocked [1] [1] [[[1]]] },
    mkDeriv := fun _ _ _ _ => { overlap := WdS, one_electron := QdH, two_body := tb } }

/-- A per-irrep count table given as a list; irreps beyond the list have count
zero. -/
def counts (l : List Nat) : Nat → Nat :=
  fun h => l.getD h 0

/-- Orbital energies given irrep by irrep. -/
def energies (l : List (List Int)) : SharedVector Int :=
  { vector_ := fun h i => (l.getD h []).getD i 0 }

/-- A two-function AO coefficient matrix with three MO columns: columns 0 and 1
belong to irrep 0, column 2 to irrep 1. -/
def Cao23 : SimpleMatrix Int :=
  mat "Cao" 2 3 [[1, 9, 2], [3, 9, 4]]

/-- One doubly occupied orbital in each of two irreps. -/
def clsdpi : Nat → Nat :=
  counts [1, 1]

/-- Two MOs in irrep 0 and one in irrep 1. -/
def nmopi : Nat → Nat :=
  counts [2, 1]

/-- A flat `2 × 2` transform matrix. -/
def U22 : SimpleMatrix Int :=
  mat "USO -> AO" 2 2 [[1, 2], [3, 4]]

/-- A flat `2 × 1` coefficient matrix. -/
def C21 : SimpleMatrix Int :=
  mat "Cso" 2 1 [[5], [6]]

/-- Previous content of the AO coefficient matrix. -/
def CaoOld : SimpleMatrix Int :=
  mat "Cao" 2 1 [[7], [7]]

/-- SO-basis coefficients of a wavefunction that lost one MO of irrep 0 to a linear
dependency: irrep 0 has two SOs and one MO, irrep 1 has one SO and one MO. -/
def CsoDependent : SharedMatrix Int :=
  blocked [2, 1] [1, 1] [[[5], [6]], [[9]]]

/-- Transform blocks of that basis: three AOs, SOs 0 and 1 in irrep 0 and SO 2 in
irrep 1. -/
def usotoaoDependent : SharedMatrix Int :=
  blocked [2, 1] [3, 3] [[[1, 0, 0], [0, 1, 0]], [[0, 0, 1]]]

/-- The flattening loop run on that wavefunction. -/
def flatDependent : FlattenState Int :=
  flatten usotoaoDependent CsoDependent 3 (counts [2, 1]) (counts [1, 1])
    (SimpleMatrix.create "USO -> AO" 3 3) (SimpleMatrix.create "Cso" 3 2)

/-- A wavefunction with two irreps of one SO and one MO each whose occupation table
asks for two occupied orbitals in irrep 0. -/
def wfnOverflow : Wavefunction Int :=
  { doccpi := counts [2, 0], Ca := blocked [1, 1] [1, 1] [[[1]], [[2]]],
    epsilon_a := energies [[5], [6]], nso := 2, nmo := 2,
    nsopi := counts [1, 1], nmopi := counts [1, 1] }

/-- Collaborators for a two-function basis with two irreps of one SO each. -/
def collab2 : Collaborators Int :=
  { construct := fun _ _ _ => { nshell := 2, nprimitive := 2, nao := 2, nbf := 2 },
    sobasisset := fun _ =>
      { nirrep := 2, dimension := counts [1, 1],
        sotoao := blocked [1, 1] [2, 2] [[[1, 0]], [[0, 1]]],
        aotoso := blocked [1, 1] [2, 2] [[[1, 0]], [[0, 1]]] },
    mkDeriv := fun _ _ _ _ =>
      { overlap := mat "WdS" 1 3 [], one_electron := mat "QdH" 1 3 [], two_body := mat "tb" 1 3 [] } }

/-- The environment with the overflowing occupation table. -/
def envOverflow : Environment Int :=
  { molecule := some atom, reference_wavefunction := wfnOverflow }

/-- An environment without an active molecule. -/
def envNoMolecule : Environment Int :=
  { molecule := none, reference_wavefunction := wfn1 1 }

/-- The environment with the one-atom molecule and the one-orbital wavefunction of
coefficient `c`. -/
def env1 (c : Int) : Environment Int :=
  { molecule := some atom, reference_wavefunction := wfn1 c }

/-- Collaborators whose evaluator returns three fixed contributions. -/
def collabFixed : Collaborators Int :=
  collab1 (mat "WdS" 1 3 [[100, 200, 300]]) (mat "QdH" 1 3 [[10, 20, 30]])
    (mat "tb" 1 3 [[1000, 2000, 3000]])

end Example

/-! ## Gradient assembly and its shape -/

section Assembly

variable {α : Type}

/-- A run that finds a molecule completes with the output of lines 42-173. -/
theorem deriv_result_of_molecule [Zero α] [One α] [Add α] [Mul α]
    (collab : Collaborators α) (env : Environment α) (options : Options)
    (molecule : Molecule α) (hmol : env.molecule = some molecule) :
    (deriv collab env options).result
      = .ok (derivBody collab env options molecule) := by
  unfold deriv
  simp only [hmol]

/-- C1: when the molecule provides the `natom × 3` matrix `enuc` and the evaluator
returns the `natom × 3` matrices `WdS`, `QdH` and `tb`, the run completes and the
gradient handed to the writer is the zero `natom × 3` matrix after the four
additions `enuc`, `QdH`, `WdS`, `tb` in that order; its entry at atom `a` and axis
`k` is `(((0 + enuc[a,k]) + QdH[a,k]) + WdS[a,k]) + tb[a,k]`. -/
theorem C1_gradient_four_additions [Zero α] [One α] [Add α] [Mul α]
    (collab : Collaborators α) (env : Environment α) (options : Options)
    (molecule : Molecule α) (enuc QdH WdS tb : SimpleMatrix α)
    (hmol : env.molecule = some molecule)
    (henuc : molecule.nuclear_repulsion_energy_deriv1 = enuc)
    (hev : ∀ e f b, collab.mkDeriv e RefType.ref_rhf f b
      = { overlap := WdS, one_electron := QdH, two_body := tb })
    (s1 : enuc.rows = molecule.natom ∧ enuc.cols = 3)
    (s2 : QdH.rows = molecule.natom ∧ QdH.cols = 3)
    (s3 : WdS.rows = molecule.natom ∧ WdS.cols = 3)
    (s4 : tb.rows = molecule.natom ∧ tb.cols = 3)
    (a k : Nat) (ha : a < molecule.natom) (hk : k < 3) :
    ∃ out, (deriv collab env options).result = .ok out ∧
      out.grad.gradient =
        ((((SimpleMatrix.create "SCF gradient" molecule.natom 3).add enuc).add QdH).add WdS).add tb ∧
      out.grad.gradient.get a k
        = (((0 + enuc.get a k) + QdH.get a k) + WdS.get a k) + tb.get a k := by
  subst henuc
  refine ⟨derivBody collab env options molecule,
    deriv_result_of_molecule collab env options molecule hmol, ?_, ?_⟩
  · simp only [derivBody, hev, assemble, constructBasisSet]
  · simp only [derivBody, hev, assemble, constructBasisSet]
    rfl

/-- Witness for C1 on a one-atom molecule: the `x` entry is
`(((0 + 1) + 10) + 100) + 1000`. -/
theorem C1_gradient_four_additions_witness :
    ∃ out, (deriv (Example.collab1 (Example.mat "WdS" 1 3 [[100, 200, 300]])
          (Example.mat "QdH" 1 3 [[10, 20, 30]]) (Example.mat "tb" 1 3 [[1000, 2000, 3000]]))
        { molecule := some Example.atom, reference_wavefunction := Example.wfn1 1 }
        Example.options).result = .ok out ∧
      out.grad.gradient =
        ((((SimpleMatrix.create "SCF gradient" 1 3).add (Example.mat "enuc" 1 3 [[1, 2, 3]])).add
          (Example.mat "QdH" 1 3 [[10, 20, 30]])).add
          (Example.mat "WdS" 1 3 [[100, 200, 300]])).add
          (Example.mat "tb" 1 3 [[1000, 2000, 3000]]) ∧
      out.grad.gradient.get 0 0
        = (((0 + (Example.mat "enuc" 1 3 [[1, 2, 3]]).get 0 0)
            + (Example.mat "QdH" 1 3 [[10, 20, 30]]).get 0 0)
            + (Example.mat "WdS" 1 3 [[100, 200, 300]]).get 0 0)
            + (Example.mat "tb" 1 3 [[1000, 2000, 3000]]).get 0 0 :=
  C1_gradient_four_additions
    (Example.collab1 (Example.mat "WdS" 1 3 [[100, 200, 300]])
      (Example.mat "QdH" 1 3 [[10, 20, 30]]) (Example.mat "tb" 1 3 [[1000, 2000, 3000]]))
    { molecule := some Example.atom, reference_wavefunction := Example.wfn1 1 }
    Example.options Example.atom (Example.mat "enuc" 1 3 [[1, 2, 3]])
    (Example.mat "QdH" 1 3 [[10, 20, 30]]) (Example.mat "WdS" 1 3 [[100, 200, 300]])
    (Example.mat "tb" 1 3 [[1000, 2000, 3000]]) rfl rfl (fun _ _ _ => rfl)
    ⟨rfl, rfl⟩ ⟨rfl, rfl⟩ ⟨rfl, rfl⟩ ⟨rfl, rfl⟩ 0 0 (by decide) (by decide)

/-- C10: whatever the basis size and the number of irreps the collaborators
report, a run on a molecule of `natom` atoms hands the writer that molecule and a
gradient of exactly `natom` rows and 3 columns; the matrix has that shape before
the additions, and an addition keeps the shape of the matrix it accumulates
into. -/
theorem C10_gradient_shape [Zero α] [One α] [Add α] [Mul α]
    (collab : Collaborators α) (env : Environment α) (options : Options)
    (molecule : Molecule α) (hmol : env.molecule = some molecule) :
    (∃ out, (deriv collab env options).result = .ok out ∧
      out.grad.molecule = molecule ∧
      out.grad.gradient.rows = molecule.natom ∧ out.grad.gradient.cols = 3) ∧
    (SimpleMatrix.create "SCF gradient" molecule.natom 3 : SimpleMatrix α).rows = molecule.natom ∧
    (SimpleMatrix.create "SCF gradient" molecule.natom 3 : SimpleMatrix α).cols = 3 ∧
    ∀ M plus : SimpleMatrix α, (M.add plus).rows = M.rows ∧ (M.add plus).cols = M.cols :=
  ⟨⟨derivBody collab env options molecule,
      deriv_result_of_molecule collab env options molecule hmol, rfl, rfl, rfl⟩,
    rfl, rfl, fun _ _ => ⟨rfl, rfl⟩⟩

/-- Witness for C10 on a one-atom molecule. -/
theorem C10_gradient_shape_witness :
    (∃ out, (deriv (Example.collab1 (Example.mat "WdS" 1 3 []) (Example.mat "QdH" 1 3 [])
          (Example.mat "tb" 1 3 []))
        { molecule := some Example.atom, reference_wavefunction := Example.wfn1 1 }
        Example.options).result = .ok out ∧
      out.grad.molecule = Example.atom ∧
      out.grad.gradient.rows = 1 ∧ out.grad.gradient.cols = 3) ∧
    (SimpleMatrix.create "SCF gradient" 1 3 : SimpleMatrix Int).rows = 1 ∧
    (SimpleMatrix.create "SCF gradient" 1 3 : SimpleMatrix Int).cols = 3 ∧
    ∀ M plus : SimpleMatrix Int, (M.add plus).rows = M.rows ∧ (M.add plus).cols = M.cols :=
  C10_gradient_shape
    (Example.collab1 (Example.mat "WdS" 1 3 []) (Example.mat "QdH" 1 3 [])
      (Example.mat "tb" 1 3 []))
    { molecule := some Example.atom, reference_wavefunction := Example.wfn1 1 }
    Example.options Example.atom rfl

end Assembly

/-! ## Density builder -/

section Density

variable {α : Type}

/-- A left-to-right accumulation over `0 .. n-1` is the sum over that range. -/
theorem foldl_add_eq_sum [AddCommMonoid α] (f : Nat → α) (b : α) (n : Nat) :
    (List.range n).foldl (fun acc s => acc + f s) b = b + ∑ s ∈ Finset.range n, f s := by
  induction n with
  | zero => simp
  | succ n ih =>
    rw [List.range_succ, List.foldl_append, ih, Finset.sum_range_succ]
    simp [add_assoc]

/-- The loop over the occupied orbitals of one irrep adds the irrep's terms to both
accumulators and leaves the offset alone. -/
theorem densityOrbital_foldl [AddCommMonoid α] [Mul α] (Cao : SimpleMatrix α)
    (etmp : SharedVector α) (m n h : Nat) (st : DensitySums α) (c : Nat) :
    (List.range c).foldl (densityOrbital Cao etmp m n h) st =
      { sum := st.sum + ∑ i ∈ Finset.range c,
          Cao.get m (i + st.mooffset) * Cao.get n (i + st.mooffset) * etmp.get h i
        qsum := st.qsum + ∑ i ∈ Finset.range c,
          Cao.get m (i + st.mooffset) * Cao.get n (i + st.mooffset)
        mooffset := st.mooffset } := by
  induction c with
  | zero => simp
  | succ c ih =>
    rw [List.range_succ, List.foldl_append, ih, Finset.sum_range_succ, Finset.sum_range_succ]
    simp [densityOrbital, add_assoc]

/-- After the irreps `0 .. H-1` the accumulators hold the double sums and the
offset is `offset H`. -/
theorem densitySums_eq [AddCommMonoid α] [Mul α] (Cao : SimpleMatrix α)
    (etmp : SharedVector α) (clsdpi nmopi : Nat → Nat) (H m n : Nat) :
    densitySums Cao etmp clsdpi nmopi H m n =
      { sum := ∑ h ∈ Finset.range H, ∑ i ∈ Finset.range (clsdpi h),
          Cao.get m (i + offset nmopi h) * Cao.get n (i + offset nmopi h) * etmp.get h i
        qsum := ∑ h ∈ Finset.range H, ∑ i ∈ Finset.range (clsdpi h),
          Cao.get m (i + offset nmopi h) * Cao.get n (i + offset nmopi h)
        mooffset := offset nmopi H } := by
  unfold densitySums
  induction H with
  | zero => simp [offset]
  | succ H ih =>
    rw [List.range_succ, List.foldl_append, ih]
    simp only [List.foldl_cons, List.foldl_nil, densityIrrep, densityOrbital_foldl,
      Finset.sum_range_succ, offset]

/-- The loop over `n` stores the sums of the pairs `(m, n)` it visits and nothing
else. -/
theorem densityEntry_foldl_get [Zero α] [Add α] [Mul α] (Cao : SimpleMatrix α)
    (etmp : SharedVector α) (clsdpi nmopi : Nat → Nat) (nirrep m : Nat) (ns : List Nat)
    (QW : Densities α) (a b : Nat) :
    ((ns.foldl (densityEntry Cao etmp clsdpi nmopi nirrep m) QW).Q.get a b
        = if a = m ∧ b ∈ ns then (densitySums Cao etmp clsdpi nmopi nirrep a b).qsum
          else QW.Q.get a b) ∧
    ((ns.foldl (densityEntry Cao etmp clsdpi nmopi nirrep m) QW).W.get a b
        = if a = m ∧ b ∈ ns then (densitySums Cao etmp clsdpi nmopi nirrep a b).sum
          else QW.W.get a b) := by
  induction ns generalizing QW with
  | nil => simp
  | cons x ns ih =>
    rw [List.foldl_cons]
    obtain ⟨hq, hw⟩ := ih (densityEntry Cao etmp clsdpi nmopi nirrep m QW x)
    rw [hq, hw]
    by_cases ha : a = m
    · subst ha
      by_cases hb : b ∈ ns
      · simp [hb]
      · by_cases hx : b = x
        · subst hx
          simp [hb, densityEntry, SimpleMatrix.get, SimpleMatrix.set]
        · simp [hb, hx, densityEntry, SimpleMatrix.get, SimpleMatrix.set]
    · simp [ha, densityEntry, SimpleMatrix.get, SimpleMatrix.set]

/-- The loop over `m` stores the sums of the pairs it visits and nothing else. -/
theorem densityRow_foldl_get [Zero α] [Add α] [Mul α] (Cao : SimpleMatrix α)
    (etmp : SharedVector α) (clsdpi nmopi : Nat → Nat) (nirrep nbf : Nat) (ms : List Nat)
    (QW : Densities α) (a b : Nat) :
    ((ms.foldl (densityRow Cao etmp clsdpi nmopi nirrep nbf) QW).Q.get a b
        = if a ∈ ms ∧ b < nbf then (densitySums Cao etmp clsdpi nmopi nirrep a b).qsum
          else QW.Q.get a b) ∧
    ((ms.foldl (densityRow Cao etmp clsdpi nmopi nirrep nbf) QW).W.get a b
        = if a ∈ ms ∧ b < nbf then (densitySums Cao etmp clsdpi nmopi nirrep a b).sum
          else QW.W.get a b) := by
  induction ms generalizing QW with
  | nil => simp
  | cons x ms ih =>
    rw [List.foldl_cons]
    obtain ⟨hq, hw⟩ := ih (densityRow Cao etmp clsdpi nmopi nirrep nbf QW x)
    obtain ⟨eq, ew⟩ :=
      densityEntry_foldl_get Cao etmp clsdpi nmopi nirrep x (List.range nbf) QW a b
    rw [hq, hw]
    unfold densityRow
    rw [eq, ew]
    by_cases hb : b < nbf
    · by_cases ha : a ∈ ms
      · simp [ha, hb]
      · by_cases hx : a = x
        · simp [hx, hb]
        · simp [ha, hx, hb]
    · simp [hb]

/-- The density builder stores, at every pair of AO indices below `nbf`, the two
sums computed for that pair. -/
theorem formDensities_get [Zero α] [Add α] [Mul α] (Cao : SimpleMatrix α)
    (etmp : SharedVector α) (clsdpi nmopi : Nat → Nat) (nirrep nbf : Nat)
    (Q W : SimpleMatrix α) (m n : Nat) (hm : m < nbf) (hn : n < nbf) :
    (formDensities Cao etmp clsdpi nmopi nirrep nbf Q W).Q.get m n
        = (densitySums Cao etmp clsdpi nmopi nirrep m n).qsum ∧
    (formDensities Cao etmp clsdpi nmopi nirrep nbf Q W).W.get m n
        = (densitySums Cao etmp clsdpi nmopi nirrep m n).sum := by
  obtain ⟨hq, hw⟩ :=
    densityRow_foldl_get Cao etmp clsdpi nmopi nirrep nbf (List.range nbf) { Q := Q, W := W } m n
  unfold formDensities
  rw [hq, hw]
  simp [hm, hn]

/-- Swapping the two AO indices does not change the sums: each term only swaps the
factors of one product. -/
theorem densitySums_swap [Zero α] [Add α] [CommMagma α] (Cao : SimpleMatrix α)
    (etmp : SharedVector α) (clsdpi nmopi : Nat → Nat) (nirrep m n : Nat) :
    densitySums Cao etmp clsdpi nmopi nirrep m n
      = densitySums Cao etmp clsdpi nmopi nirrep n m := by
  have horb : ∀ h, densityOrbital Cao etmp m n h = densityOrbital Cao etmp n m h := by
    intro h
    funext st i
    simp only [densityOrbital, mul_comm (Cao.get m (i + st.mooffset))]
  have hirr : densityIrrep Cao etmp clsdpi nmopi m n = densityIrrep Cao etmp clsdpi nmopi n m := by
    funext st h
    simp only [densityIrrep, horb]
  unfold densitySums
  rw [hirr]

/-- C2: for occupations within the MO counts and AO indices `m, n < nbf`, the
density builder stores `Q[m,n] = Σ_h Σ_{i < clsdpi h} Cao[m, i+offset h] *
Cao[n, i+offset h]`, `offset h` being the sum of `nmopi` over the irreps before
`h`; no factor of 2 appears. -/
theorem C2_Q_entry [AddCommMonoid α] [Mul α] (Cao : SimpleMatrix α) (etmp : SharedVector α)
    (clsdpi nmopi : Nat → Nat) (nirrep nbf : Nat) (Q W : SimpleMatrix α) (m n : Nat)
    (hocc : ∀ h, h < nirrep → clsdpi h ≤ nmopi h) (hm : m < nbf) (hn : n < nbf) :
    (formDensities Cao etmp clsdpi nmopi nirrep nbf Q W).Q.get m n
      = ∑ h ∈ Finset.range nirrep, ∑ i ∈ Finset.range (clsdpi h),
          Cao.get m (i + offset nmopi h) * Cao.get n (i + offset nmopi h) := by
  rw [(formDensities_get Cao etmp clsdpi nmopi nirrep nbf Q W m n hm hn).1, densitySums_eq]

/-- C3: for occupations within the MO counts and AO indices `m, n < nbf`, the
density builder stores `W[m,n] = Σ_h Σ_{i < clsdpi h} Cao[m, i+offset h] *
Cao[n, i+offset h] * epsilon[h][i]`: the energy is indexed by the irrep-local
`i`, the coefficient column by `i + offset h`. -/
theorem C3_W_entry [AddCommMonoid α] [Mul α] (Cao : SimpleMatrix α) (etmp : SharedVector α)
    (clsdpi nmopi : Nat → Nat) (nirrep nbf : Nat) (Q W : SimpleMatrix α) (m n : Nat)
    (hocc : ∀ h, h < nirrep → clsdpi h ≤ nmopi h) (hm : m < nbf) (hn : n < nbf) :
    (formDensities Cao etmp clsdpi nmopi nirrep nbf Q W).W.get m n
      = ∑ h ∈ Finset.range nirrep, ∑ i ∈ Finset.range (clsdpi h),
          Cao.get m (i + offset nmopi h) * Cao.get n (i + offset nmopi h) * etmp.get h i := by
  rw [(formDensities_get Cao etmp clsdpi nmopi nirrep nbf Q W m n hm hn).2, densitySums_eq]

/-- C4: the matrices the density builder produces are symmetric on the AO indices
below `nbf`; only the commutativity of the product of two coefficients is used. -/
theorem C4_densities_symmetric [Zero α] [Add α] [CommMagma α] (Cao : SimpleMatrix α)
    (etmp : SharedVector α) (clsdpi nmopi : Nat → Nat) (nirrep nbf : Nat)
    (Q W : SimpleMatrix α) (m n : Nat) (hm : m < nbf) (hn : n < nbf) :
    (formDensities Cao etmp clsdpi nmopi nirrep nbf Q W).Q.get m n
        = (formDensities Cao etmp clsdpi nmopi nirrep nbf Q W).Q.get n m ∧
    (formDensities Cao etmp clsdpi nmopi nirrep nbf Q W).W.get m n
        = (formDensities Cao etmp clsdpi nmopi nirrep nbf Q W).W.get n m := by
  obtain ⟨q1, w1⟩ := formDensities_get Cao etmp clsdpi nmopi nirrep nbf Q W m n hm hn
  obtain ⟨q2, w2⟩ := formDensities_get Cao etmp clsdpi nmopi nirrep nbf Q W n m hn hm
  rw [q1, w1, q2, w2, densitySums_swap]
  exact ⟨rfl, rfl⟩

end Density

section DensityWitnesses

/-- Witness for C2: two irreps of two and one MO with one occupied orbital each;
`Q[0,1] = 1*3 + 2*4 = 11`. -/
theorem C2_Q_entry_witness :
    (∀ h, h < 2 → Example.clsdpi h ≤ Example.nmopi h) ∧
    (formDensities Example.Cao23 (Example.energies [[5], [6]]) Example.clsdpi
        Example.nmopi 2 2 (SimpleMatrix.create "Q" 2 2)
        (SimpleMatrix.create "W" 2 2)).Q.get 0 1
      = ∑ h ∈ Finset.range 2, ∑ i ∈ Finset.range (Example.clsdpi h),
          Example.Cao23.get 0 (i + offset Example.nmopi h)
            * Example.Cao23.get 1 (i + offset Example.nmopi h) ∧
    (formDensities Example.Cao23 (Example.energies [[5], [6]]) Example.clsdpi
        Example.nmopi 2 2 (SimpleMatrix.create "Q" 2 2)
        (SimpleMatrix.create "W" 2 2)).Q.get 0 1 = 11 :=
  ⟨by decide,
    C2_Q_entry Example.Cao23 (Example.energies [[5], [6]]) Example.clsdpi
      Example.nmopi 2 2 (SimpleMatrix.create "Q" 2 2) (SimpleMatrix.create "W" 2 2)
      0 1 (by decide) (by decide) (by decide),
    by decide⟩

/-- Witness for C3: two irreps of two and one MO with one occupied orbital each;
`W[0,1] = 1*3*5 + 2*4*6 = 63`. -/
theorem C3_W_entry_witness :
    (∀ h, h < 2 → Example.clsdpi h ≤ Example.nmopi h) ∧
    (formDensities Example.Cao23 (Example.energies [[5], [6]]) Example.clsdpi
        Example.nmopi 2 2 (SimpleMatrix.create "Q" 2 2)
        (SimpleMatrix.create "W" 2 2)).W.get 0 1
      = ∑ h ∈ Finset.range 2, ∑ i ∈ Finset.range (Example.clsdpi h),
          Example.Cao23.get 0 (i + offset Example.nmopi h)
            * Example.Cao23.get 1 (i + offset Example.nmopi h)
            * (Example.energies [[5], [6]]).get h i ∧
    (formDensities Example.Cao23 (Example.energies [[5], [6]]) Example.clsdpi
        Example.nmopi 2 2 (SimpleMatrix.create "Q" 2 2)
        (SimpleMatrix.create "W" 2 2)).W.get 0 1 = 63 :=
  ⟨by decide,
    C3_W_entry Example.Cao23 (Example.energies [[5], [6]]) Example.clsdpi
      Example.nmopi 2 2 (SimpleMatrix.create "Q" 2 2) (SimpleMatrix.create "W" 2 2)
      0 1 (by decide) (by decide) (by decide),
    by decide⟩

/-- Witness for C4: `Q[0,1] = Q[1,0]` and `W[0,1] = W[1,0]` on the same input. -/
theorem C4_densities_symmetric_witness :
    (formDensities Example.Cao23 (Example.energies [[5], [6]]) Example.clsdpi
        Example.nmopi 2 2 (SimpleMatrix.create "Q" 2 2)
        (SimpleMatrix.create "W" 2 2)).Q.get 0 1
      = (formDensities Example.Cao23 (Example.energies [[5], [6]]) Example.clsdpi
        Example.nmopi 2 2 (SimpleMatrix.create "Q" 2 2)
        (SimpleMatrix.create "W" 2 2)).Q.get 1 0 ∧
    (formDensities Example.Cao23 (Example.energies [[5], [6]]) Example.clsdpi
        Example.nmopi 2 2 (SimpleMatrix.create "Q" 2 2)
        (SimpleMatrix.create "W" 2 2)).W.get 0 1
      = (formDensities Example.Cao23 (Example.energies [[5], [6]]) Example.clsdpi
        Example.nmopi 2 2 (SimpleMatrix.create "Q" 2 2)
        (SimpleMatrix.create "W" 2 2)).W.get 1 0 :=
  C4_densities_symmetric Example.Cao23 (Example.energies [[5], [6]]) Example.clsdpi
    Example.nmopi 2 2 (SimpleMatrix.create "Q" 2 2) (SimpleMatrix.create "W" 2 2)
    0 1 (by decide) (by decide)

end DensityWitnesses

/-! ## Coefficient transform -/

section Transform

variable {α : Type}

/-- C5: for a flat `nso × nbf` transform `U` and a flat `nso × nmo` coefficient
matrix `C`, the AO coefficient matrix after line 109 is the transpose of `U` times
`C`, whatever it held before: `Cao[mu, j] = Σ_{s < nso} U[s, mu] * C[s, j]`. -/
theorem C5_Cao_is_transpose_product [NonAssocSemiring α] (Cao U C : SimpleMatrix α)
    (nso nbf nmo : Nat) (hU : U.rows = nso ∧ U.cols = nbf) (hC : C.rows = nso ∧ C.cols = nmo)
    (mu j : Nat) (hmu : mu < nbf) (hj : j < nmo) :
    (formCao Cao U C).get mu j = ∑ s ∈ Finset.range nso, U.get s mu * C.get s j := by
  have h := foldl_add_eq_sum (fun s => U.matrix_ s mu * C.matrix_ s j) 0 U.rows
  simp only [formCao, SimpleMatrix.gemm, SimpleMatrix.get, if_true, Bool.false_eq_true, if_false]
  rw [h, hU.1]
  simp

/-- Witness for C5: `Cao[1,0] = 2*5 + 4*6 = 34`, the previous `7` being
overwritten. -/
theorem C5_Cao_is_transpose_product_witness :
    (formCao Example.CaoOld Example.U22 Example.C21).get 1 0
      = ∑ s ∈ Finset.range 2, Example.U22.get s 1 * Example.C21.get s 0 ∧
    (formCao Example.CaoOld Example.U22 Example.C21).get 1 0 = 34 ∧
    Example.CaoOld.get 1 0 = 7 :=
  ⟨C5_Cao_is_transpose_product Example.CaoOld Example.U22 Example.C21 2 2 1 ⟨rfl, rfl⟩ ⟨rfl, rfl⟩
      1 0 (by decide) (by decide),
    by decide, by decide⟩

/-- C6 on a wavefunction with two SOs and one MO in irrep 0 and one SO and one MO
in irrep 1: the claim places `Cso[1][0][0] = 9` at row 2 and column
`offset nmopi 1 = 1` of the flat matrix, the column the density builder reads for
irrep 1.  The loop advances its column offset by the row count of the block, so
it stores the value at column 2, outside the `3 × 2` matrix, and column 1 of row 2
keeps its initial zero. -/
theorem C6_column_offset_uses_row_count :
    Example.CsoDependent.get 1 0 0 = 9 ∧
    offset (Example.counts [2, 1]) 1 = 2 ∧
    offset (Example.counts [1, 1]) 1 = 1 ∧
    Example.flatDependent.simple_Cso.get 2 1 = 0 ∧
    Example.flatDependent.simple_Cso.get 2 2 = 9 ∧
    Example.flatDependent.simple_Cso.cols = 2 ∧
    Example.flatDependent.mooffset = 3 := by
  decide

end Transform

/-! ## What the evaluator receives -/

section Evaluator

variable {α : Type}

/-- C7 as stated fails: on the one-atom molecule with the one-orbital
wavefunction the run builds `Q[0,0] = 1` and `W[0,0] = 7`, and whatever the
evaluator is, none of the calls the run makes into it receives the `W` or the `Q`
of the run among its arguments. -/
theorem C7_counterexample :
    (¬ ∃ (collab : Collaborators Int) (out : Output Int),
      (deriv collab (Example.env1 1) Example.options).result = .ok out ∧
      ∃ c ∈ out.evaluatorCalls, out.W ∈ c.matrices ∨ out.Q ∈ c.matrices) ∧
    (derivBody Example.collabFixed (Example.env1 1) Example.options Example.atom).Q.get 0 0 = 1 ∧
    (derivBody Example.collabFixed (Example.env1 1) Example.options Example.atom).W.get 0 0 = 7 := by
  refine ⟨?_, by decide, by decide⟩
  rintro ⟨collab, out, hout, c, hc, hmem⟩
  rw [deriv_result_of_molecule collab (Example.env1 1) Example.options Example.atom rfl] at hout
  cases hout
  simp only [derivBody, List.mem_cons, List.mem_singleton, List.mem_nil_iff, or_false] at hc
  rcases hc with rfl | rfl | rfl | rfl <;> simp at hmem

/-- C7 amended: the overlap, one-electron and two-electron contributions summed
into the gradient are the matrices returned by the accessors `overlap()`,
`one_electron()` and `two_body()` of the evaluator constructed from the
reference type, the factory and the basis set; the run calls the constructor and
the three accessors, and none of these calls receives a matrix, so the `Q` and `W`
built by the run are not passed to the evaluator. -/
theorem C7_contributions_from_evaluator [Zero α] [One α] [Add α] [Mul α]
    (collab : Collaborators α) (env : Environment α) (options : Options)
    (molecule : Molecule α) (hmol : env.molecule = some molecule) :
    ∃ out, (deriv collab env options).result = .ok out ∧
      out.WdS = (collab.mkDeriv env RefType.ref_rhf
        { nirreps := (collab.sobasisset (constructBasisSet collab options molecule)).nirrep,
          rowspi := (collab.sobasisset (constructBasisSet collab options molecule)).dimension,
          colspi := (collab.sobasisset (constructBasisSet collab options molecule)).dimension }
        (constructBasisSet collab options molecule)).overlap ∧
      out.QdH = (collab.mkDeriv env RefType.ref_rhf
        { nirreps := (collab.sobasisset (constructBasisSet collab options molecule)).nirrep,
          rowspi := (collab.sobasisset (constructBasisSet collab options molecule)).dimension,
          colspi := (collab.sobasisset (constructBasisSet collab options molecule)).dimension }
        (constructBasisSet collab options molecule)).one_electron ∧
      out.tb = (collab.mkDeriv env RefType.ref_rhf
        { nirreps := (collab.sobasisset (constructBasisSet collab options molecule)).nirrep,
          rowspi := (collab.sobasisset (constructBasisSet collab options molecule)).dimension,
          colspi := (collab.sobasisset (constructBasisSet collab options molecule)).dimension }
        (constructBasisSet collab options molecule)).two_body ∧
      out.grad.gradient =
        ((((SimpleMatrix.create "SCF gradient" molecule.natom 3).add
          molecule.nuclear_repulsion_energy_deriv1).add out.QdH).add out.WdS).add out.tb ∧
      out.evaluatorCalls.map (fun c => c.member)
        = ["Deriv", "overlap", "one_electron", "two_body"] ∧
      (∀ c ∈ out.evaluatorCalls, c.matrices = []) ∧
      ∀ c ∈ out.evaluatorCalls, out.Q ∉ c.matrices ∧ out.W ∉ c.matrices := by
  refine ⟨derivBody collab env options molecule,
    deriv_result_of_molecule collab env options molecule hmol, rfl, rfl, rfl, rfl, rfl, ?_, ?_⟩
  · intro c hc
    simp only [derivBody, List.mem_cons, List.mem_singleton, List.mem_nil_iff, or_false] at hc
    rcases hc with rfl | rfl | rfl | rfl <;> rfl
  · intro c hc
    simp only [derivBody, List.mem_cons, List.mem_singleton, List.mem_nil_iff, or_false] at hc
    rcases hc with rfl | rfl | rfl | rfl <;> simp

/-- Witness for C7 amended: the run on the one-atom molecule with fixed
contributions sums `QdH[0,0] = 10`, `WdS[0,0] = 100` and `tb[0,0] = 1000`. -/
theorem C7_contributions_from_evaluator_witness :
    (∃ out, (deriv Example.collabFixed (Example.env1 1) Example.options).result = .ok out ∧
      out.WdS = (Example.collabFixed.mkDeriv (Example.env1 1) RefType.ref_rhf
        { nirreps := (Example.collabFixed.sobasisset
            (constructBasisSet Example.collabFixed Example.options Example.atom)).nirrep,
          rowspi := (Example.collabFixed.sobasisset
            (constructBasisSet Example.collabFixed Example.options Example.atom)).dimension,
          colspi := (Example.collabFixed.sobasisset
            (constructBasisSet Example.collabFixed Example.options Example.atom)).dimension }
        (constructBasisSet Example.collabFixed Example.options Example.atom)).overlap ∧
      out.QdH = (Example.collabFixed.mkDeriv (Example.env1 1) RefType.ref_rhf
        { nirreps := (Example.collabFixed.sobasisset
            (constructBasisSet Example.collabFixed Example.options Example.atom)).nirrep,
          rowspi := (Example.collabFixed.sobasisset
            (constructBasisSet Example.collabFixed Example.options Example.atom)).dimension,
          colspi := (Example.collabFixed.sobasisset
            (constructBasisSet Example.collabFixed Example.options Example.atom)).dimension }
        (constructBasisSet Example.collabFixed Example.options Example.atom)).one_electron ∧
      out.tb = (Example.collabFixed.mkDeriv (Example.env1 1) RefType.ref_rhf
        { nirreps := (Example.collabFixed.sobasisset
            (constructBasisSet Example.collabFixed Example.options Example.atom)).nirrep,
          rowspi := (Example.collabFixed.sobasisset
            (constructBasisSet Example.collabFixed Example.options Example.atom)).dimension,
          colspi := (Example.collabFixed.sobasisset
            (constructBasisSet Example.collabFixed Example.options Example.atom)).dimension }
        (constructBasisSet Example.collabFixed Example.options Example.atom)).two_body ∧
      out.grad.gradient =
        ((((SimpleMatrix.create "SCF gradient" Example.atom.natom 3).add
          Example.atom.nuclear_repulsion_energy_deriv1).add out.QdH).add out.WdS).add out.tb ∧
      out.evaluatorCalls.map (fun c => c.member)
        = ["Deriv", "overlap", "one_electron", "two_body"] ∧
      (∀ c ∈ out.evaluatorCalls, c.matrices = []) ∧
      ∀ c ∈ out.evaluatorCalls, out.Q ∉ c.matrices ∧ out.W ∉ c.matrices) ∧
    (derivBody Example.collabFixed (Example.env1 1) Example.options Example.atom).QdH.get 0 0
      = 10 ∧
    (derivBody Example.collabFixed (Example.env1 1) Example.options Example.atom).WdS.get 0 0
      = 100 ∧
    (derivBody Example.collabFixed (Example.env1 1) Example.options Example.atom).tb.get 0 0
      = 1000 :=
  ⟨C7_contributions_from_evaluator Example.collabFixed (Example.env1 1) Example.options
      Example.atom rfl,
    by decide, by decide, by decide⟩

end Evaluator

/-! ## Failures -/

section Failures

variable {α : Type}

/-- The loop over the occupied orbitals of one irrep, over any list of orbital
indices: both accumulators run over the list and the offset is left alone. -/
theorem densityOrbital_foldl_list [Add α] [Mul α] (Cao : SimpleMatrix α)
    (etmp : SharedVector α) (m n h : Nat) (l : List Nat) (st : DensitySums α) :
    l.foldl (densityOrbital Cao etmp m n h) st =
      { sum := l.foldl (fun acc i =>
          acc + Cao.get m (i + st.mooffset) * Cao.get n (i + st.mooffset) * etmp.get h i) st.sum
        qsum := l.foldl (fun acc i =>
          acc + Cao.get m (i + st.mooffset) * Cao.get n (i + st.mooffset)) st.qsum
        mooffset := st.mooffset } := by
  induction l generalizing st with
  | nil => rfl
  | cons x l ih =>
    rw [List.foldl_cons, ih]
    simp [densityOrbital]

/-- The sums the density builder stores are the accumulations, in order, over the
accesses of the loop: `accesses` lists exactly the coefficient columns and the
energy indices the builder uses.  No algebraic law is assumed. -/
theorem densitySums_eq_accesses [Zero α] [Add α] [Mul α] (Cao : SimpleMatrix α)
    (etmp : SharedVector α) (clsdpi nmopi : Nat → Nat) (H m n : Nat) :
    densitySums Cao etmp clsdpi nmopi H m n =
      { sum := (accesses clsdpi nmopi H).foldl (fun acc a =>
          acc + Cao.get m a.column * Cao.get n a.column * etmp.get a.h a.i) 0
        qsum := (accesses clsdpi nmopi H).foldl (fun acc a =>
          acc + Cao.get m a.column * Cao.get n a.column) 0
        mooffset := ((List.range H).foldl (accessesIrrep clsdpi nmopi) ([], 0)).2 } := by
  unfold densitySums accesses
  induction H with
  | zero => rfl
  | succ H ih =>
    rw [List.range_succ, List.foldl_append, List.foldl_append, ih]
    simp only [List.foldl_cons, List.foldl_nil, densityIrrep, densityOrbital_foldl_list,
      accessesIrrep, List.foldl_append, List.foldl_map]

/-- After the irreps `0 .. H-1` the accesses are, irrep by irrep, the local indices
`i < clsdpi h` with the column `i + offset h`, and the offset is `offset H`. -/
theorem accessesIrrep_foldl (clsdpi nmopi : Nat → Nat) (H : Nat) :
    (List.range H).foldl (accessesIrrep clsdpi nmopi) ([], 0) =
      ((List.range H).flatMap (fun h =>
          (List.range (clsdpi h)).map
            (fun i => ({ h := h, i := i, column := i + offset nmopi h } : Access))),
        offset nmopi H) := by
  induction H with
  | zero => simp [offset]
  | succ H ih =>
    rw [List.range_succ, List.foldl_append, ih]
    simp [accessesIrrep, offset, Finset.sum_range_succ]

/-- Every occupied orbital asked of an irrep below `nirrep` is accessed, at the
column `i + offset h`. -/
theorem mem_accesses (clsdpi nmopi : Nat → Nat) (nirrep h i : Nat) (hh : h < nirrep)
    (hi : i < clsdpi h) :
    ({ h := h, i := i, column := i + offset nmopi h } : Access) ∈ accesses clsdpi nmopi nirrep := by
  unfold accesses
  rw [accessesIrrep_foldl]
  simp only [List.mem_flatMap, List.mem_map, List.mem_range]
  exact ⟨h, hh, i, hi, rfl⟩

/-- C8 as stated fails: with two occupied orbitals asked of irrep 0, which has one
MO, the run does not throw `OccupationOverflow`; the loop makes the access with
local index 1 and column 1, the column of irrep 1, which has no occupied
orbital, and the entry it stores is `Q[1,1] = 0*0 + 2*2 = 4`, not the truncated
`0`. -/
theorem C8_counterexample :
    Example.wfnOverflow.nmopi 0 < Example.wfnOverflow.doccpi 0 ∧
    Example.wfnOverflow.doccpi 1 = 0 ∧
    (deriv Example.collab2 Example.envOverflow Example.options).thrown
      ≠ some "OccupationOverflow" ∧
    ({ h := 0, i := 1, column := 1 } : Access)
      ∈ accesses Example.wfnOverflow.doccpi Example.wfnOverflow.nmopi 2 ∧
    offset Example.wfnOverflow.nmopi 1 = 1 ∧
    (derivBody Example.collab2 Example.envOverflow Example.options Example.atom).Q.get 1 1
      = 4 := by
  decide

/-- C8 amended: the function has no occupation check.  When the occupied count of
an irrep `h` exceeds its MO count, the run does not throw `OccupationOverflow`
and the loop does not truncate: it makes an access for every `i < clsdpi h`, at
column `i + offset h`; the access with `i = nmopi h` reads column
`offset (h + 1)`, the first column after those of irrep `h`; and both sums
accumulate one term per access, in order.  Nothing is said of the values that
reads outside `Cao` or outside the energies of an irrep deliver. -/
theorem C8_no_occupation_check [Zero α] [One α] [Add α] [Mul α]
    (collab : Collaborators α) (env : Environment α) (options : Options)
    (nirrep h : Nat) (hh : h < nirrep)
    (hover : env.reference_wavefunction.nmopi h < env.reference_wavefunction.doccpi h) :
    (deriv collab env options).thrown ≠ some "OccupationOverflow" ∧
    (∀ i, i < env.reference_wavefunction.doccpi h →
      ({ h := h, i := i, column := i + offset env.reference_wavefunction.nmopi h } : Access)
        ∈ accesses env.reference_wavefunction.doccpi env.reference_wavefunction.nmopi nirrep) ∧
    ({ h := h, i := env.reference_wavefunction.nmopi h,
       column := offset env.reference_wavefunction.nmopi (h + 1) } : Access)
      ∈ accesses env.reference_wavefunction.doccpi env.reference_wavefunction.nmopi nirrep ∧
    ∀ (Cao : SimpleMatrix α) (etmp : SharedVector α) (m n : Nat),
      (densitySums Cao etmp env.reference_wavefunction.doccpi env.reference_wavefunction.nmopi
          nirrep m n).qsum
        = (accesses env.reference_wavefunction.doccpi env.reference_wavefunction.nmopi
            nirrep).foldl (fun acc a => acc + Cao.get m a.column * Cao.get n a.column) 0 ∧
      (densitySums Cao etmp env.reference_wavefunction.doccpi env.reference_wavefunction.nmopi
          nirrep m n).sum
        = (accesses env.reference_wavefunction.doccpi env.reference_wavefunction.nmopi
            nirrep).foldl (fun acc a =>
              acc + Cao.get m a.column * Cao.get n a.column * etmp.get a.h a.i) 0 := by
  refine ⟨?_, fun i hi => mem_accesses _ _ nirrep h i hh hi, ?_, ?_⟩
  rotate_right
  · intro Cao etmp m n
    rw [densitySums_eq_accesses]
    exact ⟨rfl, rfl⟩
  · cases hmol : env.molecule with
    | none => simp [deriv, hmol, Run.thrown]
    | some molecule => simp [deriv, hmol, Run.thrown]
  · have hmem := mem_accesses env.reference_wavefunction.doccpi env.reference_wavefunction.nmopi
      nirrep h (env.reference_wavefunction.nmopi h) hh hover
    have hcol : env.reference_wavefunction.nmopi h + offset env.reference_wavefunction.nmopi h
        = offset env.reference_wavefunction.nmopi (h + 1) := by
      simp [offset, Finset.sum_range_succ, Nat.add_comm]
    rw [hcol] at hmem
    exact hmem

/-- Witness for C8 amended, on the input of the counterexample. -/
theorem C8_no_occupation_check_witness :
    (deriv Example.collab2 Example.envOverflow Example.options).thrown
      ≠ some "OccupationOverflow" ∧
    (∀ i, i < Example.envOverflow.reference_wavefunction.doccpi 0 →
      ({ h := 0, i := i,
         column := i + offset Example.envOverflow.reference_wavefunction.nmopi 0 } : Access)
        ∈ accesses Example.envOverflow.reference_wavefunction.doccpi
            Example.envOverflow.reference_wavefunction.nmopi 2) ∧
    ({ h := 0, i := Example.envOverflow.reference_wavefunction.nmopi 0,
       column := offset Example.envOverflow.reference_wavefunction.nmopi (0 + 1) } : Access)
      ∈ accesses Example.envOverflow.reference_wavefunction.doccpi
          Example.envOverflow.reference_wavefunction.nmopi 2 ∧
    ∀ (Cao : SimpleMatrix Int) (etmp : SharedVector Int) (m n : Nat),
      (densitySums Cao etmp Example.envOverflow.reference_wavefunction.doccpi
          Example.envOverflow.reference_wavefunction.nmopi 2 m n).qsum
        = (accesses Example.envOverflow.reference_wavefunction.doccpi
            Example.envOverflow.reference_wavefunction.nmopi 2).foldl
              (fun acc a => acc + Cao.get m a.column * Cao.get n a.column) 0 ∧
      (densitySums Cao etmp Example.envOverflow.reference_wavefunction.doccpi
          Example.envOverflow.reference_wavefunction.nmopi 2 m n).sum
        = (accesses Example.envOverflow.reference_wavefunction.doccpi
            Example.envOverflow.reference_wavefunction.nmopi 2).foldl
              (fun acc a => acc + Cao.get m a.column * Cao.get n a.column * etmp.get a.h a.i) 0 :=
  C8_no_occupation_check Example.collab2 Example.envOverflow Example.options 2 0
    (by decide) (by decide)

/-- C9: a run throws "Active molecule not set!" exactly when the environment has no
active molecule; such a run has no output, and none of its effects constructs a
basis set, builds a matrix, evaluates a derivative contribution or writes the
gradient file, whereas a run with a molecule performs such effects. -/
theorem C9_missing_molecule [Zero α] [One α] [Add α] [Mul α]
    (collab : Collaborators α) (env : Environment α) (options : Options) :
    ((deriv collab env options).thrown = some "Active molecule not set!"
      ↔ env.molecule = none) ∧
    (env.molecule = none →
      (deriv collab env options).output = none ∧
      ∀ e ∈ (deriv collab env options).trace, e.isComputation = false) ∧
    (env.molecule ≠ none →
      ∃ e ∈ (deriv collab env options).trace, e.isComputation = true) := by
  cases hmol : env.molecule with
  | none =>
    refine ⟨?_, ?_, ?_⟩
    · simp [deriv, hmol, Run.thrown]
    · intro _
      refine ⟨by simp [deriv, hmol, Run.output], ?_⟩
      intro e he
      simp only [deriv, hmol, startTrace, List.cons_append, List.nil_append, List.mem_cons,
        List.mem_singleton, List.mem_nil_iff, or_false] at he
      rcases he with rfl | rfl | rfl <;> rfl
    · intro h
      exact absurd rfl h
  | some molecule =>
    refine ⟨?_, ?_, ?_⟩
    · simp [deriv, hmol, Run.thrown]
    · intro h
      cases h
    · intro _
      refine ⟨.integralFactory, ?_, rfl⟩
      simp [deriv, hmol, bodyTrace]

/-- Witness for C9 on an environment without a molecule. -/
theorem C9_missing_molecule_witness :
    (deriv Example.collabFixed Example.envNoMolecule Example.options).thrown
      = some "Active molecule not set!" ∧
    (deriv Example.collabFixed Example.envNoMolecule Example.options).output = none ∧
    ∀ e ∈ (deriv Example.collabFixed Example.envNoMolecule Example.options).trace,
      e.isComputation = false :=
  ⟨(C9_missing_molecule Example.collabFixed Example.envNoMolecule Example.options).1.mpr rfl,
    (C9_missing_molecule Example.collabFixed Example.envNoMolecule Example.options).2.1 rfl⟩

end Failures

end psi.deriv
